import Mathlib

/-!
Shallow embedding of the client-side workflow state machine of the
ai-voice-detector app (src/App.tsx together with the Language, ScanRecord and
AnalysisResult types it imports).

The React component App holds four pieces of state (selectedLanguage,
isAnalyzing, history, currentFile) plus a ref to the file-input control; we
model them as the fields of an AppState record. The two asynchronous external
collaborators (convertToBase64 via FileReader, and analyzeVoiceSample) are
modelled by an outcome parameter of type Except AnalysisFailure AnalysisResult:
Except.ok carries the AnalysisResult of a successful encode + inference,
Except.error the failure of either stage, which the try/catch of runAnalysis
treats identically. crypto.randomUUID and Date.now are modelled as the
parameters newRecordId and now. runAnalysis is split at its first await:
runAnalysisStart is the synchronous segment up to and including the
setHistory prepend (lines 34-48 of App.tsx), runAnalysisFinish is the
reconciliation (try / catch / finally, lines 50-70); runAnalysis composes
them when a file is staged and is the identity otherwise (line 35).
-/

namespace VoiceApp

/-- The Language enum of src types, constructors in source declaration order. -/
inductive Language where
  | TAMIL
  | ENGLISH
  | HINDI
  | MALAYALAM
  | TELUGU
deriving DecidableEq

/-- The declaration order of the Language enum members, first member first. -/
def languageValues : List Language :=
  [Language.TAMIL, Language.ENGLISH, Language.HINDI, Language.MALAYALAM, Language.TELUGU]

/-- The classification field of AnalysisResult: the string union of Human and
AI-Generated, as a closed sum. -/
inductive Classification where
  | Human
  | AIGenerated
deriving DecidableEq

/-- The technicalDetails object of AnalysisResult. -/
structure TechnicalDetails where
  spectralAnomalies : Bool
  breathingPatterns : String
  prosodyNaturalness : String
deriving DecidableEq

/-- The AnalysisResult interface of src types. -/
structure AnalysisResult where
  classification : Classification
  confidence : Int
  language : String
  reasoning : List String
  technicalDetails : TechnicalDetails
deriving DecidableEq

/-- The status union of ScanRecord: pending, completed or error. -/
inductive ScanStatus where
  | pending
  | completed
  | error
deriving DecidableEq

/-- The ScanRecord interface of src types. -/
structure ScanRecord where
  id : String
  timestamp : Nat
  fileName : String
  language : Language
  result : Option AnalysisResult
  status : ScanStatus
deriving DecidableEq

/-- A browser File handle: only the fields the component reads. -/
structure File where
  name : String
  size : Nat
  mimeType : String
deriving DecidableEq

/-- The state held by the App component: the four useState cells plus the
value of the file-input control behind fileInputRef. -/
structure AppState where
  selectedLanguage : Language
  isAnalyzing : Bool
  history : List ScanRecord
  currentFile : Option File
  fileInputValue : String
deriving DecidableEq

/-- The initial state of App: useState initial values at lines 9-12 of
App.tsx, with an empty file-input control. -/
def initialState : AppState :=
  { selectedLanguage := Language.ENGLISH
    isAnalyzing := false
    history := []
    currentFile := none
    fileInputValue := "" }

/-- handleFileUpload (App.tsx lines 27-32): take the first file of the event,
if any, and stage it; otherwise do nothing. -/
def handleFileUpload (s : AppState) (files : List File) : AppState :=
  match files.head? with
  | some file => { s with currentFile := some file }
  | none => s

/-- A failure of either suspending stage of runAnalysis: the FileReader
onerror rejection of convertToBase64, or any rejection of analyzeVoiceSample. -/
inductive AnalysisFailure where
  | readError
  | analysisError
deriving DecidableEq

/-- The ScanRecord literal built at lines 39-46 of App.tsx. -/
def newScanRecord (newRecordId : String) (now : Nat) (file : File)
    (lang : Language) : ScanRecord :=
  { id := newRecordId
    timestamp := now
    fileName := file.name
    language := lang
    status := ScanStatus.pending
    result := none }

/-- The per-record update of the success reconciliation (lines 54-58):
spread the record, set status completed and result, when the id matches. -/
def completeRecord (newRecordId : String) (result : AnalysisResult)
    (rec : ScanRecord) : ScanRecord :=
  if rec.id = newRecordId then
    { rec with status := ScanStatus.completed, result := some result }
  else rec

/-- The per-record update of the catch reconciliation (lines 61-65):
spread the record and set status error, when the id matches. -/
def errorRecord (newRecordId : String) (rec : ScanRecord) : ScanRecord :=
  if rec.id = newRecordId then { rec with status := ScanStatus.error } else rec

/-- The synchronous segment of runAnalysis before its first await
(App.tsx lines 34-48): guard on a staged file, set the in-flight flag,
build the pending record and prepend it to history. -/
def runAnalysisStart (s : AppState) (newRecordId : String) (now : Nat) : AppState :=
  match s.currentFile with
  | none => s
  | some file =>
    { s with
      isAnalyzing := true
      history := newScanRecord newRecordId now file s.selectedLanguage :: s.history }

/-- The reconciliation segment of runAnalysis (App.tsx lines 50-70): the
try branch maps the success update over history, the catch branch maps the
error update; the finally block clears the in-flight flag, the staged file
and the file-input control in every case. -/
def runAnalysisFinish (s : AppState) (newRecordId : String)
    (outcome : Except AnalysisFailure AnalysisResult) : AppState :=
  let afterTry :=
    match outcome with
    | Except.ok result =>
      { s with history := s.history.map (completeRecord newRecordId result) }
    | Except.error _ =>
      { s with history := s.history.map (errorRecord newRecordId) }
  { afterTry with
    isAnalyzing := false
    currentFile := none
    fileInputValue := "" }

/-- The whole runAnalysis call (App.tsx lines 34-71): a no-op when no file is
staged, otherwise the synchronous start followed by the reconciliation of the
given outcome. Totality of this function models that every failure of the
suspending stages is caught inside runAnalysis. -/
def runAnalysis (s : AppState) (newRecordId : String) (now : Nat)
    (outcome : Except AnalysisFailure AnalysisResult) : AppState :=
  match s.currentFile with
  | none => s
  | some _ => runAnalysisFinish (runAnalysisStart s newRecordId now) newRecordId outcome

/-- The user-facing operations that can reach the App state. -/
inductive Op where
  | upload (files : List File)
  | selectLanguage (lang : Language)
  | removeFile
  | analyze (newRecordId : String) (now : Nat)
      (outcome : Except AnalysisFailure AnalysisResult)

/-- One operation applied to the state: handleFileUpload, the onSelect of the
LanguageSelector (line 107), the Remove file button (line 134), or a full
runAnalysis call. -/
def step (s : AppState) : Op → AppState
  | Op.upload files => handleFileUpload s files
  | Op.selectLanguage lang => { s with selectedLanguage := lang }
  | Op.removeFile => { s with currentFile := none }
  | Op.analyze newRecordId now outcome => runAnalysis s newRecordId now outcome

/-- A sequence of operations applied left to right. -/
def runOps (s : AppState) : List Op → AppState
  | [] => s
  | op :: ops => runOps (step s op) ops

/-- True when the operation does not reuse the given record id as the id of a
new analysis: the uniqueness contract of crypto.randomUUID. -/
def opFresh (op : Op) (i : String) : Bool :=
  match op with
  | Op.analyze newRecordId _ _ => newRecordId ≠ i
  | _ => true

/-- One full submission: the user stages a file, then runAnalysis runs to its
end with the given id, timestamp and outcome. -/
structure Submission where
  file : File
  newRecordId : String
  now : Nat
  outcome : Except AnalysisFailure AnalysisResult

/-- Stage the file of a submission and run the analysis to its end. -/
def submit (s : AppState) (sub : Submission) : AppState :=
  runAnalysis (handleFileUpload s [sub.file]) sub.newRecordId sub.now sub.outcome

/-- Sequential submissions, each completing before the next begins. -/
def runSubmissions (s : AppState) : List Submission → AppState
  | [] => s
  | sub :: subs => runSubmissions (submit s sub) subs

-- Helper lemmas

theorem completeRecord_id (newRecordId : String) (result : AnalysisResult)
    (rec : ScanRecord) : (completeRecord newRecordId result rec).id = rec.id := by
  unfold completeRecord
  split <;> rfl

theorem errorRecord_id (newRecordId : String) (rec : ScanRecord) :
    (errorRecord newRecordId rec).id = rec.id := by
  unfold errorRecord
  split <;> rfl

theorem completeRecord_timestamp (newRecordId : String) (result : AnalysisResult)
    (rec : ScanRecord) :
    (completeRecord newRecordId result rec).timestamp = rec.timestamp := by
  unfold completeRecord
  split <;> rfl

theorem errorRecord_timestamp (newRecordId : String) (rec : ScanRecord) :
    (errorRecord newRecordId rec).timestamp = rec.timestamp := by
  unfold errorRecord
  split <;> rfl

theorem completeRecord_of_ne (newRecordId : String) (result : AnalysisResult)
    (rec : ScanRecord) (h : rec.id ≠ newRecordId) :
    completeRecord newRecordId result rec = rec := by
  unfold completeRecord
  simp [h]

theorem errorRecord_of_ne (newRecordId : String) (rec : ScanRecord)
    (h : rec.id ≠ newRecordId) : errorRecord newRecordId rec = rec := by
  unfold errorRecord
  simp [h]

theorem handleFileUpload_history (s : AppState) (files : List File) :
    (handleFileUpload s files).history = s.history := by
  unfold handleFileUpload
  split <;> rfl

theorem runAnalysis_history_of_file (s : AppState) (file : File)
    (newRecordId : String) (now : Nat)
    (outcome : Except AnalysisFailure AnalysisResult)
    (hcf : s.currentFile = some file) :
    (runAnalysis s newRecordId now outcome).history
      = match outcome with
        | Except.ok result =>
          (newScanRecord newRecordId now file s.selectedLanguage :: s.history).map
            (completeRecord newRecordId result)
        | Except.error _ =>
          (newScanRecord newRecordId now file s.selectedLanguage :: s.history).map
            (errorRecord newRecordId) := by
  cases outcome <;>
    simp [runAnalysis, hcf, runAnalysisStart, runAnalysisFinish]

theorem filter_id_map_of_fix (g : ScanRecord → ScanRecord) (i : String)
    (hid : ∀ r, (g r).id = r.id)
    (hfix : ∀ r : ScanRecord, r.id = i → g r = r) (l : List ScanRecord) :
    (l.map g).filter (fun r => r.id == i) = l.filter (fun r => r.id == i) := by
  induction l with
  | nil => rfl
  | cons a l ih =>
    by_cases h : a.id = i
    · simp only [List.map_cons, List.filter_cons, hid a, h, hfix a h, ih,
        beq_self_eq_true, if_true]
    · simp only [List.map_cons, List.filter_cons, hid a, ih]
      rw [if_neg (by simpa using h), if_neg (by simpa using h)]

theorem filter_id_map_nil (g : ScanRecord → ScanRecord) (i : String)
    (hid : ∀ r, (g r).id = r.id) (l : List ScanRecord)
    (h : ∀ r ∈ l, r.id ≠ i) :
    (l.map g).filter (fun r => r.id == i) = [] := by
  induction l with
  | nil => rfl
  | cons a l ih =>
    simp only [List.map_cons, List.filter_cons, hid a]
    rw [if_neg (by simpa using h a (List.mem_cons_self a l))]
    exact ih fun r hr => h r (List.mem_cons_of_mem a hr)

theorem step_filter_frame (s : AppState) (op : Op) (i : String)
    (hop : opFresh op i = true) :
    (step s op).history.filter (fun r => r.id == i)
      = s.history.filter (fun r => r.id == i) := by
  cases op with
  | upload files => rw [step, handleFileUpload_history]
  | selectLanguage lang => rfl
  | removeFile => rfl
  | analyze newRecordId now outcome =>
    have hne : newRecordId ≠ i := of_decide_eq_true hop
    cases hcf : s.currentFile with
    | none => rw [step, runAnalysis, hcf]
    | some file =>
      have hh := runAnalysis_history_of_file s file newRecordId now outcome hcf
      cases outcome with
      | ok result =>
        rw [step, hh]
        simp only [List.map_cons, List.filter_cons,
          completeRecord_id newRecordId result]
        rw [if_neg (by simp [newScanRecord, hne])]
        exact filter_id_map_of_fix _ i (completeRecord_id newRecordId result)
          (fun r hr => completeRecord_of_ne newRecordId result r
            (by rw [hr]; exact fun hc => hne hc.symm)) s.history
      | error e =>
        rw [step, hh]
        simp only [List.map_cons, List.filter_cons, errorRecord_id newRecordId]
        rw [if_neg (by simp [newScanRecord, hne])]
        exact filter_id_map_of_fix _ i (errorRecord_id newRecordId)
          (fun r hr => errorRecord_of_ne newRecordId r
            (by rw [hr]; exact fun hc => hne hc.symm)) s.history

theorem runOps_filter_frame (ops : List Op) (s : AppState) (i : String)
    (hops : ops.all (fun op => opFresh op i) = true) :
    (runOps s ops).history.filter (fun r => r.id == i)
      = s.history.filter (fun r => r.id == i) := by
  induction ops generalizing s with
  | nil => rfl
  | cons op ops ih =>
    rw [List.all_cons, Bool.and_eq_true] at hops
    rw [runOps, ih (step s op) hops.2, step_filter_frame s op i hops.1]

theorem map_timestamp_of_preserving (g : ScanRecord → ScanRecord)
    (hts : ∀ r, (g r).timestamp = r.timestamp) (l : List ScanRecord) :
    (l.map g).map (fun r => r.timestamp) = l.map (fun r => r.timestamp) := by
  induction l with
  | nil => rfl
  | cons a l ih => simp only [List.map_cons, hts a, ih]

theorem map_id_of_preserving (g : ScanRecord → ScanRecord)
    (hid : ∀ r, (g r).id = r.id) (l : List ScanRecord) :
    (l.map g).map (fun r => r.id) = l.map (fun r => r.id) := by
  induction l with
  | nil => rfl
  | cons a l ih => simp only [List.map_cons, hid a, ih]

theorem submit_history_timestamps (s : AppState) (sub : Submission) :
    (submit s sub).history.map (fun r => r.timestamp)
      = sub.now :: s.history.map (fun r => r.timestamp) := by
  have hcf : (handleFileUpload s [sub.file]).currentFile = some sub.file := rfl
  have hsel : (handleFileUpload s [sub.file]).selectedLanguage = s.selectedLanguage := rfl
  have hhist : (handleFileUpload s [sub.file]).history = s.history :=
    handleFileUpload_history s [sub.file]
  rw [submit, runAnalysis_history_of_file _ sub.file _ _ _ hcf]
  cases sub.outcome with
  | ok result =>
    rw [map_timestamp_of_preserving _ (completeRecord_timestamp _ result)]
    rw [List.map_cons, hhist]
    rfl
  | error e =>
    rw [map_timestamp_of_preserving _ (errorRecord_timestamp _)]
    rw [List.map_cons, hhist]
    rfl

theorem submit_history_ids (s : AppState) (sub : Submission) :
    (submit s sub).history.map (fun r => r.id)
      = sub.newRecordId :: s.history.map (fun r => r.id) := by
  have hcf : (handleFileUpload s [sub.file]).currentFile = some sub.file := rfl
  have hhist : (handleFileUpload s [sub.file]).history = s.history :=
    handleFileUpload_history s [sub.file]
  rw [submit, runAnalysis_history_of_file _ sub.file _ _ _ hcf]
  cases sub.outcome with
  | ok result =>
    rw [map_id_of_preserving _ (completeRecord_id _ result)]
    rw [List.map_cons, hhist]
    rfl
  | error e =>
    rw [map_id_of_preserving _ (errorRecord_id _)]
    rw [List.map_cons, hhist]
    rfl

theorem runSubmissions_timestamps (subs : List Submission) (s : AppState) :
    (runSubmissions s subs).history.map (fun r => r.timestamp)
      = (subs.map Submission.now).reverse ++ s.history.map (fun r => r.timestamp) := by
  induction subs generalizing s with
  | nil => simp [runSubmissions]
  | cons sub subs ih =>
    rw [runSubmissions, ih (submit s sub), submit_history_timestamps]
    simp

theorem runSubmissions_ids (subs : List Submission) (s : AppState) :
    (runSubmissions s subs).history.map (fun r => r.id)
      = (subs.map Submission.newRecordId).reverse ++ s.history.map (fun r => r.id) := by
  induction subs generalizing s with
  | nil => simp [runSubmissions]
  | cons sub subs ih =>
    rw [runSubmissions, ih (submit s sub), submit_history_ids]
    simp

theorem step_ids_suffix (s : AppState) (op : Op) :
    (s.history.map (fun r => r.id)).IsSuffix
      ((step s op).history.map (fun r => r.id)) := by
  cases op with
  | upload files => rw [step, handleFileUpload_history]
  | selectLanguage lang => exact List.suffix_refl _
  | removeFile => exact List.suffix_refl _
  | analyze newRecordId now outcome =>
    cases hcf : s.currentFile with
    | none => rw [step, runAnalysis, hcf]
    | some file =>
      have hh := runAnalysis_history_of_file s file newRecordId now outcome hcf
      cases outcome with
      | ok result =>
        rw [step, hh, map_id_of_preserving _ (completeRecord_id _ result)]
        exact ⟨[newRecordId], rfl⟩
      | error e =>
        rw [step, hh, map_id_of_preserving _ (errorRecord_id _)]
        exact ⟨[newRecordId], rfl⟩

theorem filter_id_nil (i : String) (l : List ScanRecord)
    (h : ∀ r ∈ l, r.id ≠ i) : l.filter (fun r => r.id == i) = [] := by
  induction l with
  | nil => rfl
  | cons a l ih =>
    rw [List.filter_cons, if_neg (by simpa using h a (List.mem_cons_self a l))]
    exact ih fun r hr => h r (List.mem_cons_of_mem a hr)

theorem runAnalysis_history_ok (s : AppState) (file : File) (newRecordId : String)
    (now : Nat) (result : AnalysisResult) (hcf : s.currentFile = some file) :
    (runAnalysis s newRecordId now (Except.ok result)).history
      = (newScanRecord newRecordId now file s.selectedLanguage :: s.history).map
          (completeRecord newRecordId result) :=
  runAnalysis_history_of_file s file newRecordId now (Except.ok result) hcf

theorem runAnalysis_history_error (s : AppState) (file : File)
    (newRecordId : String) (now : Nat) (e : AnalysisFailure)
    (hcf : s.currentFile = some file) :
    (runAnalysis s newRecordId now (Except.error e)).history
      = (newScanRecord newRecordId now file s.selectedLanguage :: s.history).map
          (errorRecord newRecordId) :=
  runAnalysis_history_of_file s file newRecordId now (Except.error e) hcf

-- Concrete values used by the witness theorems

/-- A sample 2 MB wav file, as in the scenario of the spec. -/
def sampleFile : File :=
  { name := "sample.wav", size := 2097152, mimeType := "audio/wav" }

/-- A sample successful AnalysisResult, as in the scenario of the spec. -/
def sampleResult : AnalysisResult :=
  { classification := Classification.Human
    confidence := 92
    language := "Hindi"
    reasoning := ["Natural breathing detected"]
    technicalDetails :=
      { spectralAnomalies := false
        breathingPatterns := "regular"
        prosodyNaturalness := "high" } }

/-- A state with sample.wav staged and Hindi selected. -/
def stagedState : AppState :=
  { selectedLanguage := Language.HINDI
    isAnalyzing := false
    history := []
    currentFile := some sampleFile
    fileInputValue := "" }

/-- A completed record as it would sit in history after a successful scan. -/
def rec1 : ScanRecord :=
  { id := "uuid-1"
    timestamp := 100
    fileName := "sample.wav"
    language := Language.HINDI
    result := some sampleResult
    status := ScanStatus.completed }

/-- A state whose history holds one completed record, with a file staged. -/
def historyState : AppState :=
  { selectedLanguage := Language.ENGLISH
    isAnalyzing := false
    history := [rec1]
    currentFile := some sampleFile
    fileInputValue := "" }

/-- A sequence of later operations, none reusing the id uuid-1. -/
def laterOps : List Op :=
  [Op.upload [sampleFile],
   Op.analyze "uuid-2" 200 (Except.error AnalysisFailure.analysisError),
   Op.selectLanguage Language.TAMIL]

/-- Two sequential submissions with increasing timestamps. -/
def sampleSubmissions : List Submission :=
  [{ file := sampleFile, newRecordId := "uuid-1", now := 100,
     outcome := Except.ok sampleResult },
   { file := sampleFile, newRecordId := "uuid-2", now := 200,
     outcome := Except.error AnalysisFailure.analysisError }]

-- Claim theorems

/-- C1: when a file is staged, runAnalysis creates, before its first
suspension point, exactly one new ScanRecord carrying the fresh id, the name
of the staged file, the currently selected language, status pending and a
null result, and prepends it to the history store. -/
theorem runAnalysis_prepends_pending_record (s : AppState) (file : File)
    (newRecordId : String) (now : Nat)
    (hcf : s.currentFile = some file)
    (hfresh : ∀ rec ∈ s.history, rec.id ≠ newRecordId) :
    (runAnalysisStart s newRecordId now).history
      = { id := newRecordId, timestamp := now, fileName := file.name,
          language := s.selectedLanguage, status := ScanStatus.pending,
          result := none } :: s.history
    ∧ (runAnalysisStart s newRecordId now).history.countP
        (fun rec => rec.id == newRecordId) = 1 := by
  have hh : (runAnalysisStart s newRecordId now).history
      = newScanRecord newRecordId now file s.selectedLanguage :: s.history := by
    simp [runAnalysisStart, hcf]
  constructor
  · rw [hh]; rfl
  · rw [hh, List.countP_cons, if_pos (by simp [newScanRecord])]
    have hz : s.history.countP (fun rec => rec.id == newRecordId) = 0 := by
      rw [List.countP_eq_zero]
      intro a ha
      simpa using hfresh a ha
    rw [hz]

/-- C1 witness: the C1 theorem applied to the staged sample state with the
fresh id uuid-1 at time 100. -/
theorem runAnalysis_prepends_pending_record_witness :
    stagedState.currentFile = some sampleFile
    ∧ (∀ rec ∈ stagedState.history, rec.id ≠ "uuid-1")
    ∧ ((runAnalysisStart stagedState "uuid-1" 100).history
        = { id := "uuid-1", timestamp := 100, fileName := sampleFile.name,
            language := stagedState.selectedLanguage,
            status := ScanStatus.pending, result := none } :: stagedState.history
      ∧ (runAnalysisStart stagedState "uuid-1" 100).history.countP
          (fun rec => rec.id == "uuid-1") = 1) :=
  ⟨rfl, by decide,
    runAnalysis_prepends_pending_record stagedState sampleFile "uuid-1" 100 rfl
      (by decide)⟩

/-- C2: on a submission whose encode and inference both succeed, the record
with the fresh id goes from pending (right after the prepend) to completed
with the returned result, and every later operation that does not reuse the
id leaves the records carrying that id untouched. -/
theorem successful_submission_completes_record (s : AppState) (file : File)
    (newRecordId : String) (now : Nat) (result : AnalysisResult) (ops : List Op)
    (hcf : s.currentFile = some file)
    (hfresh : ∀ rec ∈ s.history, rec.id ≠ newRecordId)
    (hops : ops.all (fun op => opFresh op newRecordId) = true) :
    (runAnalysisStart s newRecordId now).history.filter
        (fun rec => rec.id == newRecordId)
      = [{ id := newRecordId, timestamp := now, fileName := file.name,
           language := s.selectedLanguage, status := ScanStatus.pending,
           result := none }]
    ∧ (runAnalysis s newRecordId now (Except.ok result)).history.filter
        (fun rec => rec.id == newRecordId)
      = [{ id := newRecordId, timestamp := now, fileName := file.name,
           language := s.selectedLanguage, status := ScanStatus.completed,
           result := some result }]
    ∧ (runOps (runAnalysis s newRecordId now (Except.ok result)) ops).history.filter
        (fun rec => rec.id == newRecordId)
      = (runAnalysis s newRecordId now (Except.ok result)).history.filter
          (fun rec => rec.id == newRecordId) := by
  have hh : (runAnalysisStart s newRecordId now).history
      = newScanRecord newRecordId now file s.selectedLanguage :: s.history := by
    simp [runAnalysisStart, hcf]
  refine ⟨?_, ?_, runOps_filter_frame ops _ newRecordId hops⟩
  · rw [hh, List.filter_cons, if_pos (by simp [newScanRecord]),
      filter_id_nil _ _ hfresh]
    rfl
  · rw [runAnalysis_history_ok s file newRecordId now result hcf, List.map_cons,
      List.filter_cons,
      if_pos (by simp [completeRecord_id, newScanRecord]),
      filter_id_map_nil _ _ (completeRecord_id newRecordId result) _ hfresh]
    simp [completeRecord, newScanRecord]

/-- C2 witness: the C2 theorem applied to the staged sample state, the
sample result, and later operations that use only other ids. -/
theorem successful_submission_completes_record_witness :
    stagedState.currentFile = some sampleFile
    ∧ (∀ rec ∈ stagedState.history, rec.id ≠ "uuid-1")
    ∧ laterOps.all (fun op => opFresh op "uuid-1") = true
    ∧ ((runAnalysisStart stagedState "uuid-1" 100).history.filter
          (fun rec => rec.id == "uuid-1")
        = [{ id := "uuid-1", timestamp := 100, fileName := sampleFile.name,
             language := stagedState.selectedLanguage,
             status := ScanStatus.pending, result := none }]
      ∧ (runAnalysis stagedState "uuid-1" 100 (Except.ok sampleResult)).history.filter
          (fun rec => rec.id == "uuid-1")
        = [{ id := "uuid-1", timestamp := 100, fileName := sampleFile.name,
             language := stagedState.selectedLanguage,
             status := ScanStatus.completed, result := some sampleResult }]
      ∧ (runOps (runAnalysis stagedState "uuid-1" 100 (Except.ok sampleResult))
            laterOps).history.filter (fun rec => rec.id == "uuid-1")
        = (runAnalysis stagedState "uuid-1" 100 (Except.ok sampleResult)).history.filter
            (fun rec => rec.id == "uuid-1")) :=
  ⟨rfl, by decide, by decide,
    successful_submission_completes_record stagedState sampleFile "uuid-1" 100
      sampleResult laterOps rfl (by decide) (by decide)⟩

/-- C3: on a submission whose encode or inference fails, the record with the
fresh id goes from pending to error with its result still null, and the
failure is absorbed inside runAnalysis: the finally block still runs and the
in-flight flag ends cleared. -/
theorem failing_submission_errors_record (s : AppState) (file : File)
    (newRecordId : String) (now : Nat) (e : AnalysisFailure)
    (hcf : s.currentFile = some file)
    (hfresh : ∀ rec ∈ s.history, rec.id ≠ newRecordId) :
    (runAnalysisStart s newRecordId now).history.filter
        (fun rec => rec.id == newRecordId)
      = [{ id := newRecordId, timestamp := now, fileName := file.name,
           language := s.selectedLanguage, status := ScanStatus.pending,
           result := none }]
    ∧ (runAnalysis s newRecordId now (Except.error e)).history.filter
        (fun rec => rec.id == newRecordId)
      = [{ id := newRecordId, timestamp := now, fileName := file.name,
           language := s.selectedLanguage, status := ScanStatus.error,
           result := none }]
    ∧ (runAnalysis s newRecordId now (Except.error e)).isAnalyzing = false := by
  have hh : (runAnalysisStart s newRecordId now).history
      = newScanRecord newRecordId now file s.selectedLanguage :: s.history := by
    simp [runAnalysisStart, hcf]
  refine ⟨?_, ?_, ?_⟩
  · rw [hh, List.filter_cons, if_pos (by simp [newScanRecord]),
      filter_id_nil _ _ hfresh]
    rfl
  · rw [runAnalysis_history_error s file newRecordId now e hcf, List.map_cons,
      List.filter_cons,
      if_pos (by simp [errorRecord_id, newScanRecord]),
      filter_id_map_nil _ _ (errorRecord_id newRecordId) _ hfresh]
    simp [errorRecord, newScanRecord]
  · simp [runAnalysis, hcf, runAnalysisFinish]

/-- C3 witness: the C3 theorem applied to the staged sample state with a
failing inference call. -/
theorem failing_submission_errors_record_witness :
    stagedState.currentFile = some sampleFile
    ∧ (∀ rec ∈ stagedState.history, rec.id ≠ "uuid-1")
    ∧ ((runAnalysisStart stagedState "uuid-1" 100).history.filter
          (fun rec => rec.id == "uuid-1")
        = [{ id := "uuid-1", timestamp := 100, fileName := sampleFile.name,
             language := stagedState.selectedLanguage,
             status := ScanStatus.pending, result := none }]
      ∧ (runAnalysis stagedState "uuid-1" 100
            (Except.error AnalysisFailure.analysisError)).history.filter
          (fun rec => rec.id == "uuid-1")
        = [{ id := "uuid-1", timestamp := 100, fileName := sampleFile.name,
             language := stagedState.selectedLanguage,
             status := ScanStatus.error, result := none }]
      ∧ (runAnalysis stagedState "uuid-1" 100
            (Except.error AnalysisFailure.analysisError)).isAnalyzing = false) :=
  ⟨rfl, by decide,
    failing_submission_errors_record stagedState sampleFile "uuid-1" 100
      AnalysisFailure.analysisError rfl (by decide)⟩

/-- C4: when no file is staged, runAnalysis returns the state unchanged:
no record is created and nothing else changes. -/
theorem runAnalysis_noop_without_file (s : AppState) (newRecordId : String)
    (now : Nat) (outcome : Except AnalysisFailure AnalysisResult)
    (hcf : s.currentFile = none) :
    runAnalysis s newRecordId now outcome = s := by
  simp [runAnalysis, hcf]

/-- C4 witness: the C4 theorem applied to the initial state. -/
theorem runAnalysis_noop_without_file_witness :
    initialState.currentFile = none
    ∧ runAnalysis initialState "uuid-1" 100 (Except.ok sampleResult)
        = initialState :=
  ⟨rfl, runAnalysis_noop_without_file initialState "uuid-1" 100
    (Except.ok sampleResult) rfl⟩

/-- C5: the history store is append-only: every operation keeps the existing
id sequence as a suffix of the new one, and after sequential submissions with
increasing clock readings the history lists exactly one record per
submission, most recent first, with strictly decreasing timestamps. -/
theorem history_append_only_ordered (s : AppState) (op : Op)
    (subs : List Submission)
    (hinc : List.Chain' (fun a b => a.now < b.now) subs) :
    (s.history.map (fun r => r.id)).IsSuffix
      ((step s op).history.map (fun r => r.id))
    ∧ (runSubmissions initialState subs).history.map (fun r => r.id)
        = (subs.map Submission.newRecordId).reverse
    ∧ (runSubmissions initialState subs).history.map (fun r => r.timestamp)
        = (subs.map Submission.now).reverse
    ∧ List.Chain' (fun a b => b < a)
        ((runSubmissions initialState subs).history.map (fun r => r.timestamp)) := by
  have hids : (runSubmissions initialState subs).history.map (fun r => r.id)
      = (subs.map Submission.newRecordId).reverse := by
    rw [runSubmissions_ids]
    simp [initialState]
  have hts : (runSubmissions initialState subs).history.map (fun r => r.timestamp)
      = (subs.map Submission.now).reverse := by
    rw [runSubmissions_timestamps]
    simp [initialState]
  refine ⟨step_ids_suffix s op, hids, hts, ?_⟩
  rw [hts, List.chain'_reverse, List.chain'_map]
  exact hinc

/-- C5 witness: the C5 theorem applied to the remove-file operation on the
history sample state and the two sample submissions. -/
theorem history_append_only_ordered_witness :
    List.Chain' (fun a b => a.now < b.now) sampleSubmissions
    ∧ ((historyState.history.map (fun r => r.id)).IsSuffix
        ((step historyState Op.removeFile).history.map (fun r => r.id))
      ∧ (runSubmissions initialState sampleSubmissions).history.map (fun r => r.id)
          = (sampleSubmissions.map Submission.newRecordId).reverse
      ∧ (runSubmissions initialState sampleSubmissions).history.map
            (fun r => r.timestamp)
          = (sampleSubmissions.map Submission.now).reverse
      ∧ List.Chain' (fun a b => b < a)
          ((runSubmissions initialState sampleSubmissions).history.map
            (fun r => r.timestamp))) :=
  ⟨by norm_num [sampleSubmissions, List.chain'_cons, List.chain'_singleton],
    history_append_only_ordered historyState Op.removeFile sampleSubmissions
      (by norm_num [sampleSubmissions, List.chain'_cons, List.chain'_singleton])⟩

/-- C6: a record already in history, in a terminal state, is never changed
again by any sequence of later operations whose analysis ids do not reuse
its id (uniqueness of generated ids): the records carrying its id are
exactly the same before and after. -/
theorem terminal_record_never_changes (s : AppState) (rec : ScanRecord)
    (ops : List Op)
    (hmem : rec ∈ s.history)
    (hterm : rec.status = ScanStatus.completed ∨ rec.status = ScanStatus.error)
    (hops : ops.all (fun op => opFresh op rec.id) = true) :
    (runOps s ops).history.filter (fun r => r.id == rec.id)
      = s.history.filter (fun r => r.id == rec.id) :=
  runOps_filter_frame ops s rec.id hops

/-- C6 witness: the C6 theorem applied to the completed record of the history
sample state and the later operations. -/
theorem terminal_record_never_changes_witness :
    rec1 ∈ historyState.history
    ∧ (rec1.status = ScanStatus.completed ∨ rec1.status = ScanStatus.error)
    ∧ laterOps.all (fun op => opFresh op rec1.id) = true
    ∧ (runOps historyState laterOps).history.filter (fun r => r.id == rec1.id)
        = historyState.history.filter (fun r => r.id == rec1.id) :=
  ⟨by decide, by decide, by decide,
    terminal_record_never_changes historyState rec1 laterOps (by decide)
      (by decide) (by decide)⟩

/-- C7: whatever the outcome, a runAnalysis call on a state with a staged
file ends with the in-flight flag cleared, the staged file cleared and the
file-input control reset, and a further runAnalysis call on the resulting
state is a no-op. -/
theorem runAnalysis_resets_input_state (s : AppState) (file : File)
    (newRecordId : String) (now : Nat)
    (outcome : Except AnalysisFailure AnalysisResult)
    (newRecordId2 : String) (now2 : Nat)
    (outcome2 : Except AnalysisFailure AnalysisResult)
    (hcf : s.currentFile = some file) :
    (runAnalysis s newRecordId now outcome).isAnalyzing = false
    ∧ (runAnalysis s newRecordId now outcome).currentFile = none
    ∧ (runAnalysis s newRecordId now outcome).fileInputValue = ""
    ∧ runAnalysis (runAnalysis s newRecordId now outcome) newRecordId2 now2 outcome2
        = runAnalysis s newRecordId now outcome := by
  have hn : (runAnalysis s newRecordId now outcome).currentFile = none := by
    cases outcome <;> simp [runAnalysis, hcf, runAnalysisFinish]
  refine ⟨?_, hn, ?_, ?_⟩
  · cases outcome <;> simp [runAnalysis, hcf, runAnalysisFinish]
  · cases outcome <;> simp [runAnalysis, hcf, runAnalysisFinish]
  · generalize hg : runAnalysis s newRecordId now outcome = t at hn ⊢
    simp [runAnalysis, hn]

/-- C7 witness: the C7 theorem applied to the staged sample state with a
failing outcome and a tentative second call. -/
theorem runAnalysis_resets_input_state_witness :
    stagedState.currentFile = some sampleFile
    ∧ ((runAnalysis stagedState "uuid-1" 100
          (Except.error AnalysisFailure.readError)).isAnalyzing = false
      ∧ (runAnalysis stagedState "uuid-1" 100
          (Except.error AnalysisFailure.readError)).currentFile = none
      ∧ (runAnalysis stagedState "uuid-1" 100
          (Except.error AnalysisFailure.readError)).fileInputValue = ""
      ∧ runAnalysis (runAnalysis stagedState "uuid-1" 100
            (Except.error AnalysisFailure.readError)) "uuid-2" 200
            (Except.ok sampleResult)
          = runAnalysis stagedState "uuid-1" 100
              (Except.error AnalysisFailure.readError)) :=
  ⟨rfl, runAnalysis_resets_input_state stagedState sampleFile "uuid-1" 100
    (Except.error AnalysisFailure.readError) "uuid-2" 200
    (Except.ok sampleResult) rfl⟩

/-- C8: the reconciliation maps over history matching by id only: it keeps
the length, and every position holding a record with a different id holds
the very same record afterwards. -/
theorem reconcile_updates_only_matching_id (s : AppState) (newRecordId : String)
    (outcome : Except AnalysisFailure AnalysisResult) (i : Nat)
    (rec : ScanRecord)
    (hi : s.history[i]? = some rec) (hne : rec.id ≠ newRecordId) :
    (runAnalysisFinish s newRecordId outcome).history.length = s.history.length
    ∧ (runAnalysisFinish s newRecordId outcome).history[i]? = some rec := by
  cases outcome with
  | ok result =>
    constructor
    · simp [runAnalysisFinish]
    · simp only [runAnalysisFinish]
      rw [List.getElem?_map, hi]
      simp [completeRecord_of_ne newRecordId result rec hne]
  | error e =>
    constructor
    · simp [runAnalysisFinish]
    · simp only [runAnalysisFinish]
      rw [List.getElem?_map, hi]
      simp [errorRecord_of_ne newRecordId rec hne]

/-- C8 witness: the C8 theorem applied to the history sample state while a
reconciliation for the distinct id uuid-2 lands. -/
theorem reconcile_updates_only_matching_id_witness :
    historyState.history[0]? = some rec1
    ∧ rec1.id ≠ "uuid-2"
    ∧ ((runAnalysisFinish historyState "uuid-2"
          (Except.ok sampleResult)).history.length = historyState.history.length
      ∧ (runAnalysisFinish historyState "uuid-2"
          (Except.ok sampleResult)).history[0]? = some rec1) :=
  ⟨rfl, by decide,
    reconcile_updates_only_matching_id historyState "uuid-2"
      (Except.ok sampleResult) 0 rec1 rfl (by decide)⟩

/-- C9 counterexample: the claim says the initial selected language is the
first member of the Language enum, Tamil; but the useState initial value at
line 9 of App.tsx is Language.ENGLISH, so the initial selected language is
not Tamil. -/
theorem initial_language_not_first_enum :
    languageValues.head? = some Language.TAMIL
    ∧ initialState.selectedLanguage ≠ Language.TAMIL := by
  constructor
  · rfl
  · decide

/-- C9 amended: the initial selected language is English, the second member
of the closed Language enumeration, whose members are exactly Tamil, English,
Hindi, Malayalam and Telugu in declaration order. -/
theorem initial_language_is_english :
    initialState.selectedLanguage = Language.ENGLISH
    ∧ languageValues[1]? = some Language.ENGLISH
    ∧ ∀ lang : Language, lang ∈ languageValues := by
  refine ⟨rfl, rfl, ?_⟩
  intro lang
  cases lang <;> simp [languageValues]

/-- C10: a file-selection event carrying no file leaves the whole state, in
particular the staged file, unchanged. -/
theorem handleFileUpload_empty_noop (s : AppState) :
    handleFileUpload s [] = s := rfl

end VoiceApp
